import Mathlib

/-!
Verification of the devora storage engine (src-tauri): the dual-backend
data store (document-oriented `JsonStore` in json_store.rs and relational
`Database` in db.rs), the one-shot SQLite-to-JSON migration procedure
(migration.rs), and the external-change detector.

Embedding conventions:
* Timestamps are RFC3339 strings in the source, produced by `Utc::now()`
  and compared lexicographically; they are modelled as `Nat` and every
  operation that calls `Self::now()` takes the current clock value `now`
  as an explicit argument.
* UUIDs produced by `Uuid::new_v4()` are passed in as explicit `String`
  arguments.
* `f64` card coordinates are modelled as `Int`; no claim depends on
  float arithmetic, the store only copies these values.
* Fallible operations return `Except String α`, mirroring
  `Result<α, String>` (JsonStore) and `rusqlite::Result<α>` (Database);
  disk-write failures are not modelled (writes in the model always
  succeed), read/parse failures of project documents are modelled by the
  document map holding an `Except.error` entry or no entry at all.
-/

/-! ### Entity model (models.rs, json_store.rs) -/

inductive ItemType
  | note | ide | file | url | remoteIde | command
deriving DecidableEq, Repr

inductive CodingAgentType
  | claudeCode | opencode | geminiCli
deriving DecidableEq, Repr

inductive CommandMode
  | background | output
deriving DecidableEq, Repr

structure WorkingDir where
  name : String
  path : String
  host : Option String
deriving DecidableEq, Repr

structure OtherLink where
  label : String
  url : String
deriving DecidableEq, Repr

structure ProjectMetadata where
  github_url : Option String := none
  custom_url : Option String := none
  other_links : Option (List OtherLink) := none
  working_dirs : Option (List WorkingDir) := none
  section_order : Option (List String) := none
deriving DecidableEq, Repr

instance : Inhabited ProjectMetadata := ⟨{}⟩

structure Item where
  id : String
  project_id : String
  item_type : ItemType
  title : String
  content : String
  ide_type : Option String
  remote_ide_type : Option String
  coding_agent_type : Option CodingAgentType
  coding_agent_args : Option String
  coding_agent_env : Option String
  command_mode : Option CommandMode
  command_cwd : Option String
  command_host : Option String
  order : Int
  created_at : Nat
  updated_at : Nat
deriving DecidableEq, Repr

structure FileCard where
  id : String
  project_id : String
  filename : String
  file_path : String
  position_x : Int
  position_y : Int
  is_expanded : Bool
  is_minimized : Bool
  z_index : Int
  created_at : Nat
  updated_at : Nat
deriving DecidableEq, Repr

structure TodoItem where
  id : String
  project_id : String
  content : String
  completed : Bool
  order : Int
  indent_level : Int
  created_at : Nat
  updated_at : Nat
  completed_at : Option Nat
deriving DecidableEq, Repr

structure Project where
  id : String
  name : String
  description : String
  metadata : ProjectMetadata
  created_at : Nat
  updated_at : Nat
  items : Option (List Item)
deriving DecidableEq, Repr

/-- Flattened project row of the export/import envelope (metadata kept as a
raw JSON string). -/
structure ProjectRow where
  id : String
  name : String
  description : String
  metadata : String
  created_at : Nat
  updated_at : Nat
deriving DecidableEq, Repr

/-- Flattened file-card row of the export/import envelope (booleans as
integers). -/
structure FileCardRow where
  id : String
  project_id : String
  filename : String
  file_path : String
  position_x : Int
  position_y : Int
  is_expanded : Int
  is_minimized : Int
  z_index : Int
  created_at : Nat
  updated_at : Nat
deriving DecidableEq, Repr

structure ImportData where
  projects : List ProjectRow
  items : List Item
  file_cards : Option (List FileCardRow)
deriving DecidableEq, Repr

structure ImportResult where
  projects_imported : Int
  items_imported : Int
  file_cards_imported : Int
  skipped : Int
deriving DecidableEq, Repr

/-! ### Shared list helpers

`updateFirst` mirrors the Rust `iter_mut().find(p)`-then-mutate pattern:
only the first matching element is modified.  `sortByKey` is a stable
insertion sort, mirroring Rust's stable `sort_by_key`. -/

def updateFirst (p : α → Bool) (f : α → α) : List α → List α
  | [] => []
  | a :: rest => if p a then f a :: rest else a :: updateFirst p f rest

def insertByKey (key : α → Int) (a : α) : List α → List α
  | [] => [a]
  | b :: rest =>
    if key b ≤ key a then b :: insertByKey key a rest else a :: b :: rest

def sortByKey (key : α → Int) : List α → List α
  | [] => []
  | a :: rest => insertByKey key a (sortByKey key rest)

/-- Association-list lookup used for the document map. -/
def alistFind (k : String) : List (String × β) → Option β
  | [] => none
  | (k₀, v) :: rest => if k₀ = k then some v else alistFind k rest

/-- Replace the first binding of `k` (or append a new one): the semantics
of overwriting a project file on disk / inserting into the cache map. -/
def alistUpsert (k : String) (v : β) : List (String × β) → List (String × β)
  | [] => [(k, v)]
  | (k₀, v₀) :: rest =>
    if k₀ = k then (k, v) :: rest else (k₀, v₀) :: alistUpsert k v rest

def alistRemove (k : String) : List (String × β) → List (String × β)
  | [] => []
  | (k₀, v₀) :: rest =>
    if k₀ = k then alistRemove k rest else (k₀, v₀) :: alistRemove k rest

/-! ### Document store (json_store.rs) -/

/-- Full project document stored in `projects/{id}.json`. -/
structure ProjectData where
  id : String
  name : String
  description : String
  metadata : ProjectMetadata
  items : List Item
  todos : List TodoItem
  file_cards : List FileCard
  created_at : Nat
  updated_at : Nat
deriving DecidableEq, Repr

def ProjectData.to_project (d : ProjectData) : Project :=
  { id := d.id, name := d.name, description := d.description
    metadata := d.metadata, created_at := d.created_at
    updated_at := d.updated_at, items := none }

def ProjectData.to_project_with_items (d : ProjectData) : Project :=
  { d.to_project with items := some d.items }

deriving instance DecidableEq for Except

/-- State of a `JsonStore`: the in-memory metadata (project id list and
global settings) and the contents of the `projects/` directory together
with the read cache (the model folds cache and disk into one map, since
every modelled operation is atomic over both).  A `(id, Except.error e)`
entry stands for a project file that exists but fails to read or parse;
a missing entry stands for a missing file. -/
structure JsonStore where
  project_ids : List String
  global_settings : List (String × String)
  docs : List (String × Except String ProjectData)
deriving DecidableEq, Repr

namespace JsonStore

/-- Models `load_project`: cache/file read; a missing file surfaces as a read
error, exactly like `fs::read_to_string` on a missing path. -/
def load_project (s : JsonStore) (id : String) : Except String ProjectData :=
  match alistFind id s.docs with
  | some r => r
  | none => .error "Failed to read project file"

/-- Models `save_project`: atomic write of the whole document plus cache insert. -/
def save_project (s : JsonStore) (d : ProjectData) : JsonStore :=
  { s with docs := alistUpsert d.id (.ok d) s.docs }

/-- Models `get_project_by_id`: ids not in the metadata index answer `None`;
a load failure of an indexed project also answers `Ok(None)`. -/
def get_project_by_id (s : JsonStore) (id : String) :
    Except String (Option Project) :=
  if s.project_ids.contains id then
    match s.load_project id with
    | .ok d => .ok (some d.to_project_with_items)
    | .error _ => .ok none
  else
    .ok none

/-- Models `update_project`. -/
def update_project (s : JsonStore) (id : String)
    (name description : Option String) (metadata : Option ProjectMetadata)
    (now : Nat) : JsonStore × Except String (Option Project) :=
  match s.load_project id with
  | .error _ => (s, .ok none)
  | .ok d =>
    let d := { d with
      name := name.getD d.name
      description := description.getD d.description
      metadata := metadata.getD d.metadata
      updated_at := now }
    (s.save_project d, .ok (some d.to_project_with_items))

/-- Models `delete_project`. -/
def delete_project (s : JsonStore) (id : String) :
    JsonStore × Except String Bool :=
  if s.project_ids.contains id then
    ({ s with
        docs := alistRemove id s.docs
        project_ids := s.project_ids.filter (fun pid => pid ≠ id) },
      .ok true)
  else
    (s, .ok false)

end JsonStore

/-- Models `iter().map(f).max().unwrap_or(dflt)`: maximum of a list with a
default for the empty list, used for the `order`/`z_index` counters. -/
def listMaxD (xs : List Int) (dflt : Int) : Int :=
  match xs with
  | [] => dflt
  | x :: rest => rest.foldl max x

/-- Field set accepted by `update_item` in both backends: an outer `none`
means "field not provided", `some v` supplies the new (nullable) value. -/
structure ItemUpdate where
  title : Option String := none
  content : Option String := none
  ide_type : Option (Option String) := none
  remote_ide_type : Option (Option String) := none
  coding_agent_type : Option (Option CodingAgentType) := none
  coding_agent_args : Option (Option String) := none
  coding_agent_env : Option (Option String) := none
  command_mode : Option (Option CommandMode) := none
  command_cwd : Option (Option String) := none
  command_host : Option (Option String) := none
  order : Option Int := none
deriving Repr

/-- Field set accepted by `update_file_card`. -/
structure FileCardUpdate where
  filename : Option String := none
  file_path : Option String := none
  position_x : Option Int := none
  position_y : Option Int := none
  is_expanded : Option Bool := none
  is_minimized : Option Bool := none
  z_index : Option Int := none
deriving Repr

/-- Field set accepted by `update_todo`. -/
structure TodoUpdate where
  content : Option String := none
  completed : Option Bool := none
  indent_level : Option Int := none
  order : Option Int := none
deriving Repr

namespace JsonStore

/-- The field merge of `JsonStore::update_item`: every provided field
overwrites, including the nullable ones, whose provided inner option is
assigned verbatim (`item.coding_agent_args = caa.map(|s| s.to_string())`). -/
def applyItemUpdate (u : ItemUpdate) (now : Nat) (i : Item) : Item :=
  { i with
    title := u.title.getD i.title
    content := u.content.getD i.content
    ide_type := u.ide_type.getD i.ide_type
    remote_ide_type := u.remote_ide_type.getD i.remote_ide_type
    coding_agent_type := u.coding_agent_type.getD i.coding_agent_type
    coding_agent_args := u.coding_agent_args.getD i.coding_agent_args
    coding_agent_env := u.coding_agent_env.getD i.coding_agent_env
    command_mode := u.command_mode.getD i.command_mode
    command_cwd := u.command_cwd.getD i.command_cwd
    command_host := u.command_host.getD i.command_host
    order := u.order.getD i.order
    updated_at := now }

/-- The `for project_id in &project_ids { load; if target found: mutate,
save, return }` scan shared by the by-child-id update/delete operations:
the first readable document on which `step` fires is rewritten and its
result returned; load failures are skipped; no hit answers `Ok(None)`. -/
def scan_mutate (s : JsonStore)
    (step : ProjectData → Option (ProjectData × β)) :
    List String → JsonStore × Except String (Option β)
  | [] => (s, .ok none)
  | pid :: rest =>
    match s.load_project pid with
    | .error _ => scan_mutate s step rest
    | .ok d =>
      match step d with
      | some (d2, b) => (s.save_project d2, .ok (some b))
      | none => scan_mutate s step rest

/-- Models `create_item`: appends the item with a fresh `max+1` order and
refreshes the project's `updated_at`. -/
def create_item (s : JsonStore) (project_id : String) (item_type : ItemType)
    (title content : String) (ide_type remote_ide_type : Option String)
    (coding_agent_type : Option CodingAgentType)
    (coding_agent_args coding_agent_env : Option String)
    (command_mode : Option CommandMode)
    (command_cwd command_host : Option String)
    (newId : String) (now : Nat) : JsonStore × Except String Item :=
  match s.load_project project_id with
  | .error e => (s, .error e)
  | .ok d =>
    let item : Item :=
      { id := newId, project_id := project_id, item_type := item_type
        title := title, content := content, ide_type := ide_type
        remote_ide_type := remote_ide_type
        coding_agent_type := coding_agent_type
        coding_agent_args := coding_agent_args
        coding_agent_env := coding_agent_env
        command_mode := command_mode, command_cwd := command_cwd
        command_host := command_host
        order := listMaxD (d.items.map Item.order) (-1) + 1
        created_at := now, updated_at := now }
    let d2 := { d with items := d.items ++ [item], updated_at := now }
    (s.save_project d2, .ok item)

/-- Models `update_item`: scans all projects for the item; on a hit the item's
fields are merged, its `updated_at` set to now, and the project's
`updated_at` set to the same timestamp. -/
def update_item (s : JsonStore) (id : String) (u : ItemUpdate) (now : Nat) :
    JsonStore × Except String (Option Item) :=
  s.scan_mutate
    (fun d =>
      match d.items.find? (fun i => i.id = id) with
      | none => none
      | some i =>
        some ({ d with
                  items := updateFirst (fun i => i.id = id)
                    (applyItemUpdate u now) d.items
                  updated_at := now },
              applyItemUpdate u now i))
    s.project_ids

/-- Models `delete_item`: removes every item with the id from the owning project
and refreshes that project's `updated_at`. -/
def delete_item (s : JsonStore) (id : String) (now : Nat) :
    JsonStore × Except String Bool :=
  let r := s.scan_mutate
    (fun d =>
      if d.items.any (fun i => i.id = id) then
        some ({ d with
                  items := d.items.filter (fun i => i.id ≠ id)
                  updated_at := now },
              ())
      else none)
    s.project_ids
  (r.1, r.2.map Option.isSome)

/-- Models `reorder_items`: assigns each listed id the dense order equal to its
position, stamps the touched items and the project, then sorts the
document's item list by order (Rust's stable `sort_by_key`). -/
def reorder_items (s : JsonStore) (project_id : String)
    (item_ids : List String) (now : Nat) : JsonStore × Except String Unit :=
  match s.load_project project_id with
  | .error e => (s, .error e)
  | .ok d =>
    let items := item_ids.enum.foldl
      (fun acc p =>
        updateFirst (fun i => i.id = p.2)
          (fun i => { i with order := Int.ofNat p.1, updated_at := now })
          acc)
      d.items
    let d2 := { d with items := sortByKey Item.order items, updated_at := now }
    (s.save_project d2, .ok ())

/-- Models `get_file_cards_by_project`: the project's cards sorted by z-index. -/
def get_file_cards_by_project (s : JsonStore) (project_id : String) :
    Except String (List FileCard) :=
  (s.load_project project_id).map (fun d => sortByKey FileCard.z_index d.file_cards)

/-- Models `create_file_card`: appends the card with a fresh `max+1` z-index.
The project's own `updated_at` is left untouched. -/
def create_file_card (s : JsonStore) (project_id : String)
    (filename file_path : String) (position_x position_y : Int)
    (newId : String) (now : Nat) : JsonStore × Except String FileCard :=
  match s.load_project project_id with
  | .error e => (s, .error e)
  | .ok d =>
    let card : FileCard :=
      { id := newId, project_id := project_id, filename := filename
        file_path := file_path, position_x := position_x
        position_y := position_y, is_expanded := false
        is_minimized := false
        z_index := listMaxD (d.file_cards.map FileCard.z_index) (-1) + 1
        created_at := now, updated_at := now }
    let d2 := { d with file_cards := d.file_cards ++ [card] }
    (s.save_project d2, .ok card)

/-- The field merge of `update_file_card`. -/
def applyCardUpdate (u : FileCardUpdate) (now : Nat) (c : FileCard) : FileCard :=
  { c with
    filename := u.filename.getD c.filename
    file_path := u.file_path.getD c.file_path
    position_x := u.position_x.getD c.position_x
    position_y := u.position_y.getD c.position_y
    is_expanded := u.is_expanded.getD c.is_expanded
    is_minimized := u.is_minimized.getD c.is_minimized
    z_index := u.z_index.getD c.z_index
    updated_at := now }

/-- Models `update_file_card`: scans projects for the card and merges its fields;
the project's own `updated_at` is left untouched. -/
def update_file_card (s : JsonStore) (id : String) (u : FileCardUpdate)
    (now : Nat) : JsonStore × Except String (Option FileCard) :=
  s.scan_mutate
    (fun d =>
      match d.file_cards.find? (fun c => c.id = id) with
      | none => none
      | some c =>
        some ({ d with
                  file_cards := updateFirst (fun c => c.id = id)
                    (applyCardUpdate u now) d.file_cards },
              applyCardUpdate u now c))
    s.project_ids

/-- Models `delete_file_card`: removes the card; the project's own `updated_at`
is left untouched. -/
def delete_file_card (s : JsonStore) (id : String) :
    JsonStore × Except String Bool :=
  let r := s.scan_mutate
    (fun d =>
      if d.file_cards.any (fun c => c.id = id) then
        some ({ d with file_cards := d.file_cards.filter (fun c => c.id ≠ id) },
              ())
      else none)
    s.project_ids
  (r.1, r.2.map Option.isSome)

/-- Models `get_todos_by_project`: the project's todos sorted by order. -/
def get_todos_by_project (s : JsonStore) (project_id : String) :
    Except String (List TodoItem) :=
  (s.load_project project_id).map (fun d => sortByKey TodoItem.order d.todos)

/-- Models `create_todo`: appends an uncompleted todo with a fresh `max+1`
order; the project's own `updated_at` is left untouched. -/
def create_todo (s : JsonStore) (project_id : String) (content : String)
    (indent_level : Int) (newId : String) (now : Nat) :
    JsonStore × Except String TodoItem :=
  match s.load_project project_id with
  | .error e => (s, .error e)
  | .ok d =>
    let todo : TodoItem :=
      { id := newId, project_id := project_id, content := content
        completed := false
        order := listMaxD (d.todos.map TodoItem.order) (-1) + 1
        indent_level := indent_level, created_at := now, updated_at := now
        completed_at := none }
    let d2 := { d with todos := d.todos ++ [todo] }
    (s.save_project d2, .ok todo)

/-- The todo merge of `JsonStore::update_todo`, including the
`completed_at` lifecycle: completing for the first time stamps `now`,
setting `completed = false` clears the stamp, re-asserting `completed =
true` on an already-completed todo keeps the existing stamp. -/
def applyTodoUpdate (u : TodoUpdate) (now : Nat) (t : TodoItem) : TodoItem :=
  let t2 :=
    match u.completed with
    | none => t
    | some comp =>
      { t with
        completed := comp
        completed_at :=
          if comp && !t.completed then some now
          else if !comp then none
          else t.completed_at }
  { t2 with
    content := u.content.getD t.content
    indent_level := u.indent_level.getD t.indent_level
    order := u.order.getD t.order
    updated_at := now }

/-- Models `update_todo`: scans projects for the todo and merges its fields; the
project's own `updated_at` is left untouched. -/
def update_todo (s : JsonStore) (id : String) (u : TodoUpdate) (now : Nat) :
    JsonStore × Except String (Option TodoItem) :=
  s.scan_mutate
    (fun d =>
      match d.todos.find? (fun t => t.id = id) with
      | none => none
      | some t =>
        some ({ d with
                  todos := updateFirst (fun t => t.id = id)
                    (applyTodoUpdate u now) d.todos },
              applyTodoUpdate u now t))
    s.project_ids

/-- Models `delete_todo`: removes the todo; the project's own `updated_at` is
left untouched. -/
def delete_todo (s : JsonStore) (id : String) :
    JsonStore × Except String Bool :=
  let r := s.scan_mutate
    (fun d =>
      if d.todos.any (fun t => t.id = id) then
        some ({ d with todos := d.todos.filter (fun t => t.id ≠ id) }, ())
      else none)
    s.project_ids
  (r.1, r.2.map Option.isSome)

/-- Models `reorder_todos`: dense orders for the listed ids, then a stable sort
of the todo list; the project's own `updated_at` is left untouched. -/
def reorder_todos (s : JsonStore) (project_id : String)
    (todo_ids : List String) (now : Nat) : JsonStore × Except String Unit :=
  match s.load_project project_id with
  | .error e => (s, .error e)
  | .ok d =>
    let todos := todo_ids.enum.foldl
      (fun acc p =>
        updateFirst (fun t => t.id = p.2)
          (fun t => { t with order := Int.ofNat p.1, updated_at := now })
          acc)
      d.todos
    let d2 := { d with todos := sortByKey TodoItem.order todos }
    (s.save_project d2, .ok ())

/-- Models `import_data`.  `parseMeta` stands for `serde_json::from_str` on the
row's metadata blob (`unwrap_or_default` on failure).  In replace mode
all existing projects are deleted first.  A project row whose id already
exists is counted as skipped and nothing is written for it; items and
cards are only ever gathered for rows that are actually imported. -/
def import_data (s : JsonStore) (parseMeta : String → Option ProjectMetadata)
    (data : ImportData) (mode : String) : JsonStore × Except String ImportResult :=
  let s0 :=
    if mode = "replace" then
      s.project_ids.foldl (fun acc id => (acc.delete_project id).1) s
    else s
  let out := data.projects.foldl
    (fun (st : JsonStore × Int × Int × Int × Int) row =>
      let (s1, pi, ii, fi, sk) := st
      if s1.project_ids.contains row.id then (s1, pi, ii, fi, sk + 1)
      else
        let pItems := data.items.filter (fun i => i.project_id = row.id)
        let pCards := ((data.file_cards.getD []).filter
            (fun c => c.project_id = row.id)).map
          (fun c =>
            { id := c.id, project_id := c.project_id, filename := c.filename
              file_path := c.file_path, position_x := c.position_x
              position_y := c.position_y
              is_expanded := c.is_expanded == (1 : Int)
              is_minimized := c.is_minimized == (1 : Int), z_index := c.z_index
              created_at := c.created_at, updated_at := c.updated_at
              : FileCard })
        let d : ProjectData :=
          { id := row.id, name := row.name, description := row.description
            metadata := (parseMeta row.metadata).getD {}
            items := pItems, todos := [], file_cards := pCards
            created_at := row.created_at, updated_at := row.updated_at }
        let s2 := s1.save_project d
        let s3 := { s2 with project_ids := s2.project_ids ++ [row.id] }
        (s3, pi + 1, ii + Int.ofNat pItems.length,
          fi + Int.ofNat pCards.length, sk))
    (s0, 0, 0, 0, 0)
  (out.1,
    .ok { projects_imported := out.2.1, items_imported := out.2.2.1
          file_cards_imported := out.2.2.2.1, skipped := out.2.2.2.2 })

/-- Models `has_external_changes`: pure comparison of the currently observed
mtime of metadata.json against the last-recorded one (the two
filesystem observations are the function's arguments). -/
def has_external_changes (current_mtime last_mtime : Option Nat) : Bool :=
  match current_mtime, last_mtime with
  | some current, some last => current != last
  | some _, none => true
  | none, some _ => true
  | none, none => false

end JsonStore

/-! ### Relational store (db.rs)

Tables are modelled as row lists; `WHERE id = ?` single-row reads are
`find?`, `UPDATE ... WHERE` rewrites every matching row, `DELETE`
filters.  `PRAGMA foreign_keys = ON` together with the
`ON DELETE CASCADE` clauses makes a project delete cascade to its items,
file cards, and todos. -/

/-- A row of the `projects` table (metadata kept as its raw TEXT blob). -/
structure DbProjectRow where
  id : String
  name : String
  description : String
  metadata : String
  created_at : Nat
  updated_at : Nat
deriving DecidableEq, Repr

structure Database where
  projects : List DbProjectRow
  items : List Item
  file_cards : List FileCard
  todos : List TodoItem
  settings : List (String × String)
deriving DecidableEq, Repr

namespace Database

/-- Items of a project as `get_project_by_id` reads them:
`WHERE project_id = ? ORDER BY "order" ASC`. -/
def items_of_project (db : Database) (pid : String) : List Item :=
  sortByKey Item.order (db.items.filter (fun i => i.project_id = pid))

/-- Models `get_project_by_id`.  `parseMeta` stands for `serde_json::from_str`
on the metadata blob (`unwrap_or_default` on failure). -/
def get_project_by_id (db : Database)
    (parseMeta : String → Option ProjectMetadata) (id : String) :
    Option Project :=
  (db.projects.find? (fun p => p.id = id)).map
    (fun p =>
      { id := p.id, name := p.name, description := p.description
        metadata := (parseMeta p.metadata).getD {}
        created_at := p.created_at, updated_at := p.updated_at
        items := some (db.items_of_project id) })

/-- Models `update_project`: no row means `Ok(None)`; otherwise overwrite the
provided fields and stamp `updated_at`.  The serialized metadata blob is
produced by `serialMeta`, standing for `serde_json::to_string`. -/
def update_project (db : Database)
    (parseMeta : String → Option ProjectMetadata)
    (serialMeta : ProjectMetadata → String) (id : String)
    (name description : Option String) (metadata : Option ProjectMetadata)
    (now : Nat) : Database × Option Project :=
  match db.get_project_by_id parseMeta id with
  | none => (db, none)
  | some existing =>
    let newName := name.getD existing.name
    let newDescription := description.getD existing.description
    let newMeta := metadata.getD existing.metadata
    let db2 := { db with
      projects := db.projects.map
        (fun p =>
          if p.id = id then
            { p with name := newName, description := newDescription
                     metadata := serialMeta newMeta, updated_at := now }
          else p) }
    (db2, db2.get_project_by_id parseMeta id)

/-- Models `delete_project`: `DELETE FROM projects WHERE id = ?`; the
`ON DELETE CASCADE` clauses remove the deleted project's items, file
cards, and todos; `changes > 0` is the result. -/
def delete_project (db : Database) (id : String) : Database × Bool :=
  if db.projects.any (fun p => p.id = id) then
    ({ db with
        projects := db.projects.filter (fun p => p.id ≠ id)
        items := db.items.filter (fun i => i.project_id ≠ id)
        file_cards := db.file_cards.filter (fun c => c.project_id ≠ id)
        todos := db.todos.filter (fun t => t.project_id ≠ id) },
      true)
  else (db, false)

/-- Models `UPDATE projects SET updated_at = ? WHERE id = ?` — the "touch
project" statement issued by the item mutations. -/
def touch_project (db : Database) (pid : String) (now : Nat) : Database :=
  { db with
    projects := db.projects.map
      (fun p => if p.id = pid then { p with updated_at := now } else p) }

/-- Models `create_item`: insert with the `COALESCE(MAX("order"), -1) + 1`
order, then touch the project. -/
def create_item (db : Database) (project_id : String) (item_type : ItemType)
    (title content : String) (ide_type remote_ide_type : Option String)
    (coding_agent_type : Option CodingAgentType)
    (coding_agent_args coding_agent_env : Option String)
    (command_mode : Option CommandMode)
    (command_cwd command_host : Option String)
    (newId : String) (now : Nat) : Database × Item :=
  let item : Item :=
    { id := newId, project_id := project_id, item_type := item_type
      title := title, content := content, ide_type := ide_type
      remote_ide_type := remote_ide_type
      coding_agent_type := coding_agent_type
      coding_agent_args := coding_agent_args
      coding_agent_env := coding_agent_env
      command_mode := command_mode, command_cwd := command_cwd
      command_host := command_host
      order := listMaxD ((db.items.filter
        (fun i => i.project_id = project_id)).map Item.order) (-1) + 1
      created_at := now, updated_at := now }
  (touch_project { db with items := db.items ++ [item] } project_id now, item)

/-- The clear-versus-keep-versus-set merge `Database::update_item`
applies to `coding_agent_args` / `coding_agent_env`: not provided keeps
the stored value, a provided empty string or a provided explicit null
clears it, a provided non-empty string sets it. -/
def threeState (arg : Option (Option String)) (existing : Option String) :
    Option String :=
  match arg with
  | some (some s) => if s = "" then none else some s
  | some none => none
  | none => existing

/-- The field merge of `Database::update_item`: plain `unwrap_or` for
every field except the two coding-agent text fields, which go through
`threeState`. -/
def applyItemUpdate (u : ItemUpdate) (now : Nat) (i : Item) : Item :=
  { i with
    title := u.title.getD i.title
    content := u.content.getD i.content
    ide_type := u.ide_type.getD i.ide_type
    remote_ide_type := u.remote_ide_type.getD i.remote_ide_type
    coding_agent_type := u.coding_agent_type.getD i.coding_agent_type
    coding_agent_args := threeState u.coding_agent_args i.coding_agent_args
    coding_agent_env := threeState u.coding_agent_env i.coding_agent_env
    command_mode := u.command_mode.getD i.command_mode
    command_cwd := u.command_cwd.getD i.command_cwd
    command_host := u.command_host.getD i.command_host
    order := u.order.getD i.order
    updated_at := now }

/-- Models `update_item`: read the row, merge, write back, touch the project. -/
def update_item (db : Database) (id : String) (u : ItemUpdate) (now : Nat) :
    Database × Option Item :=
  match db.items.find? (fun i => i.id = id) with
  | none => (db, none)
  | some existing =>
    let merged := applyItemUpdate u now existing
    let db2 := { db with
      items := db.items.map (fun i => if i.id = id then merged else i) }
    (touch_project db2 existing.project_id now, some merged)

/-- Models `delete_item`: delete the row and, when a row was removed, touch the
owning project. -/
def delete_item (db : Database) (id : String) (now : Nat) :
    Database × Bool :=
  let project_id := (db.items.find? (fun i => i.id = id)).map Item.project_id
  let hit := db.items.any (fun i => i.id = id)
  let db2 := { db with items := db.items.filter (fun i => i.id ≠ id) }
  let db3 :=
    if hit then
      match project_id with
      | some pid => touch_project db2 pid now
      | none => db2
    else db2
  (db3, hit)

/-- The row updates of `Database::reorder_items`: one dense-order UPDATE
per listed id, guarded by `AND project_id = ?`.  Each UPDATE touches the
items table only, so the loop is a fold over the item rows. -/
def reorder_items_rows (project_id : String) (item_ids : List String)
    (now : Nat) (items : List Item) : List Item :=
  item_ids.enum.foldl
    (fun acc p =>
      acc.map
        (fun i =>
          if i.id = p.2 && i.project_id = project_id then
            { i with order := Int.ofNat p.1, updated_at := now }
          else i))
    items

/-- Models `reorder_items`: the dense-order UPDATE loop, then touch the
project. -/
def reorder_items (db : Database) (project_id : String)
    (item_ids : List String) (now : Nat) : Database :=
  touch_project
    { db with items := reorder_items_rows project_id item_ids now db.items }
    project_id now

/-- Models `get_file_cards_by_project`: `ORDER BY z_index ASC`. -/
def get_file_cards_by_project (db : Database) (pid : String) : List FileCard :=
  sortByKey FileCard.z_index (db.file_cards.filter (fun c => c.project_id = pid))

/-- Models `create_file_card`: insert with the fresh `max+1` z-index.  The
project's `updated_at` is not touched. -/
def create_file_card (db : Database) (project_id : String)
    (filename file_path : String) (position_x position_y : Int)
    (newId : String) (now : Nat) : Database × FileCard :=
  let card : FileCard :=
    { id := newId, project_id := project_id, filename := filename
      file_path := file_path, position_x := position_x
      position_y := position_y, is_expanded := false, is_minimized := false
      z_index := listMaxD ((db.file_cards.filter
        (fun c => c.project_id = project_id)).map FileCard.z_index) (-1) + 1
      created_at := now, updated_at := now }
  ({ db with file_cards := db.file_cards ++ [card] }, card)

/-- The field merge of `Database::update_file_card`. -/
def applyCardUpdate (u : FileCardUpdate) (now : Nat) (c : FileCard) : FileCard :=
  { c with
    filename := u.filename.getD c.filename
    file_path := u.file_path.getD c.file_path
    position_x := u.position_x.getD c.position_x
    position_y := u.position_y.getD c.position_y
    is_expanded := u.is_expanded.getD c.is_expanded
    is_minimized := u.is_minimized.getD c.is_minimized
    z_index := u.z_index.getD c.z_index
    updated_at := now }

/-- Models `update_file_card`: read, merge, write back.  The project's
`updated_at` is not touched. -/
def update_file_card (db : Database) (id : String) (u : FileCardUpdate)
    (now : Nat) : Database × Option FileCard :=
  match db.file_cards.find? (fun c => c.id = id) with
  | none => (db, none)
  | some existing =>
    let merged := applyCardUpdate u now existing
    ({ db with
        file_cards := db.file_cards.map
          (fun c => if c.id = id then merged else c) },
      some merged)

/-- Models `delete_file_card`: plain delete; the project's `updated_at` is not
touched. -/
def delete_file_card (db : Database) (id : String) : Database × Bool :=
  let hit := db.file_cards.any (fun c => c.id = id)
  ({ db with file_cards := db.file_cards.filter (fun c => c.id ≠ id) }, hit)

/-- Models `get_todos_by_project`: `ORDER BY "order" ASC`. -/
def get_todos_by_project (db : Database) (pid : String) : List TodoItem :=
  sortByKey TodoItem.order (db.todos.filter (fun t => t.project_id = pid))

/-- Models `create_todo`: insert uncompleted with the fresh `max+1` order.  The
project's `updated_at` is not touched. -/
def create_todo (db : Database) (project_id : String) (content : String)
    (indent_level : Int) (newId : String) (now : Nat) :
    Database × TodoItem :=
  let todo : TodoItem :=
    { id := newId, project_id := project_id, content := content
      completed := false
      order := listMaxD ((db.todos.filter
        (fun t => t.project_id = project_id)).map TodoItem.order) (-1) + 1
      indent_level := indent_level, created_at := now, updated_at := now
      completed_at := none }
  ({ db with todos := db.todos ++ [todo] }, todo)

/-- The todo merge of `Database::update_todo`, with the same
`completed_at` lifecycle as the document backend: first-time completion
stamps `now`, `completed = false` clears, re-asserting `true` on an
already-completed todo keeps the stored stamp. -/
def applyTodoUpdate (u : TodoUpdate) (now : Nat) (t : TodoItem) : TodoItem :=
  let newCompleted := u.completed.getD t.completed
  { t with
    content := u.content.getD t.content
    completed := newCompleted
    indent_level := u.indent_level.getD t.indent_level
    order := u.order.getD t.order
    updated_at := now
    completed_at :=
      if newCompleted && !t.completed then some now
      else if !newCompleted then none
      else t.completed_at }

/-- Models `update_todo`: read, merge, write back.  The project's `updated_at`
is not touched. -/
def update_todo (db : Database) (id : String) (u : TodoUpdate) (now : Nat) :
    Database × Option TodoItem :=
  match db.todos.find? (fun t => t.id = id) with
  | none => (db, none)
  | some existing =>
    let merged := applyTodoUpdate u now existing
    ({ db with
        todos := db.todos.map (fun t => if t.id = id then merged else t) },
      some merged)

/-- Models `delete_todo`: plain delete; the project's `updated_at` is not
touched. -/
def delete_todo (db : Database) (id : String) : Database × Bool :=
  let hit := db.todos.any (fun t => t.id = id)
  ({ db with todos := db.todos.filter (fun t => t.id ≠ id) }, hit)

/-- The row updates of `Database::reorder_todos`, a fold over the todo
rows for the same reason as `reorder_items_rows`. -/
def reorder_todos_rows (project_id : String) (todo_ids : List String)
    (now : Nat) (todos : List TodoItem) : List TodoItem :=
  todo_ids.enum.foldl
    (fun acc p =>
      acc.map
        (fun t =>
          if t.id = p.2 && t.project_id = project_id then
            { t with order := Int.ofNat p.1, updated_at := now }
          else t))
    todos

/-- Models `reorder_todos`: one dense-order UPDATE per listed id; neither the
project row nor anything else is touched. -/
def reorder_todos (db : Database) (project_id : String)
    (todo_ids : List String) (now : Nat) : Database :=
  { db with todos := reorder_todos_rows project_id todo_ids now db.todos }

/-- Models `import_data`: replace mode batch-deletes cards, items and projects
(the project delete cascades to todos); merge walks projects, then
items, then cards, skipping — and counting as skipped — every id
collision and every child whose parent project is absent. -/
def import_data (db : Database) (data : ImportData) (mode : String) :
    Database × ImportResult :=
  let db0 :=
    if mode = "replace" then
      { db with
        file_cards := []
        items := []
        projects := []
        todos := db.todos.filter
          (fun t => (db.projects.find? (fun p => p.id = t.project_id)).isNone) }
    else db
  let afterProjects := data.projects.foldl
    (fun (st : Database × Int × Int) row =>
      let (d, pi, sk) := st
      if (d.projects.find? (fun p => p.id = row.id)).isSome then
        (d, pi, sk + 1)
      else
        ({ d with
            projects := d.projects ++
              [{ id := row.id, name := row.name
                 description := row.description, metadata := row.metadata
                 created_at := row.created_at
                 updated_at := row.updated_at }] },
          pi + 1, sk))
    (db0, 0, 0)
  let afterItems := data.items.foldl
    (fun (st : Database × Int × Int) item =>
      let (d, ii, sk) := st
      if (d.items.find? (fun i => i.id = item.id)).isSome then
        (d, ii, sk + 1)
      else if (d.projects.find? (fun p => p.id = item.project_id)).isNone then
        (d, ii, sk + 1)
      else
        ({ d with items := d.items ++ [item] }, ii + 1, sk))
    (afterProjects.1, 0, afterProjects.2.2)
  let afterCards := (data.file_cards.getD []).foldl
    (fun (st : Database × Int × Int) c =>
      let (d, fi, sk) := st
      if (d.file_cards.find? (fun x => x.id = c.id)).isSome then
        (d, fi, sk + 1)
      else if (d.projects.find? (fun p => p.id = c.project_id)).isNone then
        (d, fi, sk + 1)
      else
        ({ d with
            file_cards := d.file_cards ++
              [{ id := c.id, project_id := c.project_id
                 filename := c.filename, file_path := c.file_path
                 position_x := c.position_x, position_y := c.position_y
                 is_expanded := c.is_expanded == (1 : Int)
                 is_minimized := c.is_minimized == (1 : Int)
                 z_index := c.z_index, created_at := c.created_at
                 updated_at := c.updated_at }] },
          fi + 1, sk))
    (afterItems.1, 0, afterItems.2.2)
  (afterCards.1,
    { projects_imported := afterProjects.2.1
      items_imported := afterItems.2.1
      file_cards_imported := afterCards.2.1
      skipped := afterCards.2.2 })

end Database

/-! ### Filesystem write traces and the migration procedure (migration.rs)

`migration.rs` builds against a later revision of json_store than the
one in src/: its `Metadata` carries a `projects: Vec<ProjectInfo>` list
of `{id, name}` pairs next to the legacy `project_ids`, and its
`ProjectData.todos` is a single rendered markdown string.  Those two
shapes are reconstructed here exactly as migration.rs uses them.

To settle how files reach the disk, the two writers are modelled as
emitters of filesystem-operation traces: `write_json_atomic`
(json_store.rs) emits create-temp / write-temp / sync / rename, while
the migration writes emit plain in-place `fs::write` operations. -/

inductive FsOp
  /-- Models `fs::File::create` of the temporary sibling file. -/
  | createTemp (path : String)
  /-- Models `write_all` of the serialized JSON into the temporary file. -/
  | writeTemp (path : String)
  /-- Models `sync_all` of the temporary file. -/
  | syncTemp (path : String)
  /-- Models `fs::rename`. -/
  | rename (src dst : String)
  /-- Models `fs::write`: a direct, in-place whole-file write. -/
  | writeInPlace (path : String)
deriving DecidableEq, Repr

/-- Models `path.with_extension("json.tmp")` on a `*.json` path: the `json`
extension is replaced by `json.tmp`, i.e. `.tmp` is appended. -/
def tmp_path (path : String) : String := path ++ ".tmp"

/-- The operation sequence `JsonStore::write_json_atomic` performs for a
destination path (create temp, write, sync, atomic rename). -/
def write_json_atomic_trace (path : String) : List FsOp :=
  [.createTemp (tmp_path path), .writeTemp (tmp_path path),
    .syncTemp (tmp_path path), .rename (tmp_path path) path]

/-- Models `{id, name}` project entry of the later-revision metadata index. -/
structure ProjectInfo where
  id : String
  name : String
deriving DecidableEq, Repr

/-- The later-revision metadata index written by the migration. -/
structure MigMetadata where
  version : Nat
  project_ids : List String
  projects : List ProjectInfo
  global_settings : List (String × String)
deriving DecidableEq, Repr

structure MigrationResult where
  projects_migrated : Nat
  items_migrated : Nat
  todos_migrated : Nat
  file_cards_migrated : Nat
  settings_migrated : Nat
deriving DecidableEq, Repr

/-- A `projects` row of the legacy SQLite database, with its metadata
blob already decoded (`unwrap_or_default` on parse failure). -/
structure SqliteProject where
  id : String
  name : String
  description : String
  metadata : ProjectMetadata
  created_at : Nat
  updated_at : Nat
deriving DecidableEq, Repr

/-- Contents of the legacy SQLite database as the migration reads them.
An absent `todos`/`settings` table reads back as the empty list, which
is how `get_sqlite_todos`/`migrate_settings` treat a missing table. -/
structure SqliteContents where
  projects : List SqliteProject
  items : List Item
  todos : List TodoItem
  file_cards : List FileCard
  settings : List (String × String)
deriving DecidableEq, Repr

def project_file_path (data_dir id : String) : String :=
  data_dir ++ "/projects/" ++ id ++ ".json"

def metadata_file_path (data_dir : String) : String :=
  data_dir ++ "/metadata.json"

/-- Models `convert_todos_to_markdown`: one line per todo ordered by `order`,
two spaces per indent level, a checkbox marker, then the content. -/
def convert_todos_to_markdown (todos : List TodoItem) : String :=
  if todos.isEmpty then ""
  else
    String.intercalate "\n"
      ((sortByKey TodoItem.order todos).map
        (fun todo =>
          String.join (List.replicate todo.indent_level.toNat "  ") ++ "- "
            ++ (if todo.completed then "[x]" else "[ ]") ++ " "
            ++ todo.content))

/-- Models `migrate_sqlite_to_json`: per-project in-place file writes followed
by an in-place write of the fresh metadata index.  Returns the counters,
the metadata index that lands on disk, and the filesystem trace. -/
def migrate_sqlite_to_json (c : SqliteContents) (data_dir : String) :
    MigrationResult × MigMetadata × List FsOp :=
  let steps := c.projects.map
    (fun p =>
      let items := sortByKey Item.order
        (c.items.filter (fun i => i.project_id = p.id))
      let legacy_todos := sortByKey TodoItem.order
        (c.todos.filter (fun t => t.project_id = p.id))
      let cards := sortByKey FileCard.z_index
        (c.file_cards.filter (fun fc => fc.project_id = p.id))
      (ProjectInfo.mk p.id p.name, items.length, legacy_todos.length,
        cards.length, FsOp.writeInPlace (project_file_path data_dir p.id)))
  let result : MigrationResult :=
    { projects_migrated := c.projects.length
      items_migrated := (steps.map (fun st => st.2.1)).sum
      todos_migrated := (steps.map (fun st => st.2.2.1)).sum
      file_cards_migrated := (steps.map (fun st => st.2.2.2.1)).sum
      settings_migrated := c.settings.length }
  let metadata : MigMetadata :=
    { version := 1, project_ids := [], projects := steps.map (fun st => st.1)
      global_settings := c.settings }
  (result, metadata,
    steps.map (fun st => st.2.2.2.2)
      ++ [.writeInPlace (metadata_file_path data_dir)])

/-- Models `path.with_extension("db.migrated")` on `.../projects.db`. -/
def migrated_db_path (path : String) : String := path ++ ".migrated"

/-- The filesystem as `migrate_if_needed` observes it: the parse result
of metadata.json if readable, and the legacy database contents at the
two candidate locations. -/
structure MigEnv where
  /-- Models `none`: metadata.json absent; `some none`: present but unreadable
  or unparsable; `some (some m)`: reads and parses to `m`. -/
  metadata_file : Option (Option MigMetadata)
  sqlite_in_data : Option SqliteContents
  sqlite_in_config : Option SqliteContents
deriving Repr

/-- The conversion-plus-rename tail of `migrate_if_needed` once a legacy
database was located. -/
def run_migration (c : SqliteContents) (data_dir sqlite_path : String) :
    Except String (Option MigrationResult) × List FsOp :=
  let r := migrate_sqlite_to_json c data_dir
  (.ok (some r.1), r.2.2 ++ [.rename sqlite_path (migrated_db_path sqlite_path)])

/-- Models `migrate_if_needed`: no-op when the metadata index exists, parses,
and lists at least one project (in either the legacy `project_ids` or
the newer `projects` field); otherwise the legacy database is searched
in the data directory, then the config directory; absent everywhere
means a fresh start (`Ok(None)`, nothing written). -/
def migrate_if_needed (env : MigEnv) (config_dir data_dir : String) :
    Except String (Option MigrationResult) × List FsOp :=
  let populated :=
    match env.metadata_file with
    | some (some m) => !m.project_ids.isEmpty || !m.projects.isEmpty
    | _ => false
  if populated then (.ok none, [])
  else
    match env.sqlite_in_data with
    | some c => run_migration c data_dir (data_dir ++ "/projects.db")
    | none =>
      match env.sqlite_in_config with
      | some c => run_migration c data_dir (config_dir ++ "/projects.db")
      | none => (.ok none, [])


/-! ### Helper lemmas and sample data -/

theorem alistFind_upsert_self (k : String) (v : β) (l : List (String × β)) :
    alistFind k (alistUpsert k v l) = some v := by
  induction l with
  | nil => simp [alistFind, alistUpsert]
  | cons hd tl ih =>
    obtain ⟨k₀, v₀⟩ := hd
    by_cases h : k₀ = k
    · simp [alistUpsert, h, alistFind]
    · simp [alistUpsert, h, alistFind, ih]

/-- A child-id scan over projects none of which contains the target
answers `Ok(None)` and leaves the store untouched. -/
theorem scan_mutate_none (s : JsonStore)
    (step : ProjectData → Option (ProjectData × β)) (ids : List String)
    (h : ∀ pid ∈ ids, ∀ d, s.load_project pid = .ok d → step d = none) :
    s.scan_mutate step ids = (s, .ok none) := by
  induction ids with
  | nil => rfl
  | cons pid rest ih =>
    have hrest : ∀ pid2 ∈ rest, ∀ d, s.load_project pid2 = .ok d → step d = none :=
      fun pid2 hm => h pid2 (List.mem_cons_of_mem _ hm)
    unfold JsonStore.scan_mutate
    cases hl : s.load_project pid with
    | error e => simpa using ih hrest
    | ok d =>
      have hstep := h pid (List.mem_cons_self _ _) d hl
      simp [hstep, ih hrest]

/-- Sample item `"i"` of project `"p"` with `coding_agent_args = "foo"`. -/
def sampleItem : Item :=
  { id := "i", project_id := "p", item_type := .note, title := "t"
    content := "c", ide_type := none, remote_ide_type := none
    coding_agent_type := none, coding_agent_args := some "foo"
    coding_agent_env := none, command_mode := none, command_cwd := none
    command_host := none, order := 0, created_at := 1, updated_at := 1 }

/-- Sample document of project `"p"` last updated at time 5, holding
`sampleItem` and nothing else. -/
def sampleDoc : ProjectData :=
  { id := "p", name := "P", description := "", metadata := {}
    items := [sampleItem], todos := [], file_cards := []
    created_at := 1, updated_at := 5 }

/-- Sample document store holding exactly project `"p"`. -/
def sampleStore : JsonStore :=
  { project_ids := ["p"], global_settings := [], docs := [("p", .ok sampleDoc)] }

/-- Sample legacy SQLite contents: one project, no children. -/
def sampleSqlite : SqliteContents :=
  { projects := [{ id := "p1", name := "P", description := ""
                   metadata := {}, created_at := 1, updated_at := 1 }]
    items := [], todos := [], file_cards := [], settings := [] }


/-! ### Claim theorems -/

/-- C9: `has_external_changes` reports a change exactly when the
currently observed mtime of metadata.json differs from the last-recorded
observation: a differing timestamp in either direction (newer or older)
when the file is present at both observations, or its existence flipping
either way; it reports no change when the timestamps are equal or the
file is absent at both observations.  All four cases collapse to
inequality of the two `Option` observations. -/
theorem has_external_changes_iff (current last : Option Nat) :
    JsonStore.has_external_changes current last = true ↔ current ≠ last := by
  cases current <;> cases last <;>
    simp [JsonStore.has_external_changes, bne]

theorem has_external_changes_iff_witness :
    JsonStore.has_external_changes (some 7) (some 3) = true :=
  (has_external_changes_iff (some 7) (some 3)).mpr (by decide)

/-- C10: when a project id is listed in the metadata index but its
document fails to load (missing file, unreadable file, or malformed
JSON — all surfacing as a load error), `get_project_by_id` answers a
successful `None`, the same answer given for an id that is not listed at
all, rather than propagating the read error. -/
theorem get_project_by_id_swallows_load_failure (s : JsonStore)
    (id : String) (e : String)
    (hmem : s.project_ids.contains id = true)
    (hload : s.load_project id = .error e) :
    s.get_project_by_id id = .ok none ∧
      (∀ s2 : JsonStore, ∀ id2, s2.project_ids.contains id2 = false →
        s2.get_project_by_id id2 = .ok none) := by
  constructor
  · simp [JsonStore.get_project_by_id, hmem, hload]
  · intro s2 id2 h2
    have hnm : id2 ∉ s2.project_ids := by simpa using h2
    simp [JsonStore.get_project_by_id, hnm]

theorem get_project_by_id_swallows_load_failure_witness :
    ({ project_ids := ["p"], global_settings := []
       docs := [("p", .error "malformed")] } : JsonStore).get_project_by_id "p"
      = .ok none :=
  (get_project_by_id_swallows_load_failure _ "p" "malformed"
    (by decide) (by decide)).1

/-- C7: running `migrate_if_needed` a second time right after a first
run whose conversion produced the metadata index now on disk — with at
least one migrated project, so the index is populated — performs no
writes and no renames and returns the no-op outcome `Ok(None)`. -/
theorem migrate_if_needed_second_run_noop (env : MigEnv)
    (c : SqliteContents) (config_dir data_dir dd1 : String)
    (hmeta : env.metadata_file = some (some ((migrate_sqlite_to_json c dd1).2.1)))
    (hne : c.projects ≠ []) :
    migrate_if_needed env config_dir data_dir = (.ok none, []) := by
  unfold migrate_if_needed
  rw [hmeta]
  obtain ⟨p, rest, hc⟩ := List.exists_cons_of_ne_nil hne
  simp [migrate_sqlite_to_json, hc]

theorem migrate_if_needed_second_run_noop_witness :
    migrate_if_needed
      { metadata_file := some (some ((migrate_sqlite_to_json sampleSqlite "data").2.1))
        sqlite_in_data := some sampleSqlite, sqlite_in_config := none }
      "config" "data" = (.ok none, []) :=
  migrate_if_needed_second_run_noop _ sampleSqlite "config" "data" "data"
    rfl (by decide)

/-- Recognizer for a direct in-place `fs::write`. -/
def FsOp.isInPlaceWrite : FsOp → Bool
  | .writeInPlace _ => true
  | _ => false

/-- C4 counterexample: migrating a database with one project writes the
project document and then metadata.json with plain in-place `fs::write`
operations — the trace contains an in-place write of metadata.json and
no temp-file/rename step at all, refuting "no code path writes these
files in place". -/
theorem migration_writes_metadata_in_place :
    (migrate_sqlite_to_json sampleSqlite "data").2.2 =
        [FsOp.writeInPlace "data/projects/p1.json",
          FsOp.writeInPlace "data/metadata.json"] ∧
      FsOp.writeInPlace "data/metadata.json"
        ∈ (migrate_sqlite_to_json sampleSqlite "data").2.2 := by
  constructor
  · decide
  · decide

/-- C4 amended: `JsonStore::write_json_atomic` — the writer behind every
JsonStore write of metadata.json and the project documents — touches
only the `*.json.tmp` sibling (create, write, sync) and finishes by
renaming it over the destination, never writing the destination in
place; the migration procedure `migrate_sqlite_to_json`, by contrast,
performs all of its writes (each project document and the final
metadata.json) as direct in-place `fs::write` operations with no
temp-file/rename sequence. -/
theorem write_path_atomicity (c : SqliteContents) (data_dir path : String) :
    ((migrate_sqlite_to_json c data_dir).2.2.all FsOp.isInPlaceWrite = true) ∧
      ((write_json_atomic_trace path).all
        (fun op => !op.isInPlaceWrite) = true) ∧
      write_json_atomic_trace path =
        [FsOp.createTemp (tmp_path path), FsOp.writeTemp (tmp_path path),
          FsOp.syncTemp (tmp_path path), FsOp.rename (tmp_path path) path] := by
  refine ⟨?_, by simp [write_json_atomic_trace, FsOp.isInPlaceWrite], rfl⟩
  simp [migrate_sqlite_to_json, List.all_map, Function.comp, FsOp.isInPlaceWrite]

/-- Sample item `"i"` carrying values in both coding-agent text fields
(`coding_agent_args = "foo"`, `coding_agent_env = "bar"`). -/
def sampleItemEnv : Item := { sampleItem with coding_agent_env := some "bar" }

def sampleDocEnv : ProjectData := { sampleDoc with items := [sampleItemEnv] }

def sampleStoreEnv : JsonStore :=
  { project_ids := ["p"], global_settings := []
    docs := [("p", .ok sampleDocEnv)] }

/-- C1 counterexample: in the document backend, updating item `"i"`
(stored with `coding_agent_args = "foo"` and `coding_agent_env =
"bar"`) while supplying an explicit empty string for both fields leaves
both stored as the present empty string — neither is cleared to absent,
refuting the claim for this backend. -/
theorem update_item_empty_string_not_cleared :
    (JsonStore.update_item sampleStoreEnv "i"
          { coding_agent_args := some (some "")
            coding_agent_env := some (some "") } 10).2
        = .ok (some { sampleItemEnv with
                        coding_agent_args := some ""
                        coding_agent_env := some "", updated_at := 10 }) ∧
      (((JsonStore.update_item sampleStoreEnv "i"
            { coding_agent_args := some (some "")
              coding_agent_env := some (some "") } 10).1.load_project
          "p").map (fun d => d.items.map (fun it => it.coding_agent_args)))
        = .ok [some ""] ∧
      (((JsonStore.update_item sampleStoreEnv "i"
            { coding_agent_args := some (some "")
              coding_agent_env := some (some "") } 10).1.load_project
          "p").map (fun d => d.items.map (fun it => it.coding_agent_env)))
        = .ok [some ""] ∧
      (some "" : Option String) ≠ none := by
  refine ⟨by decide, by decide, by decide, by decide⟩

/-- C1 amended: for a stored item, the relational backend's
`update_item` obeys the full three-state contract on both
`coding_agent_args` and `coding_agent_env` (omitted keeps the stored
value, a provided empty string — or a provided explicit null — clears
it to absent, a provided non-empty string sets it); the document
backend's `update_item` keeps the stored value when either field is
omitted and assigns the provided inner option verbatim, so an explicit
null clears but an explicit empty string is stored as a present empty
string instead of clearing — again for both fields. -/
theorem update_item_coding_agent_three_state
    (db : Database) (s : JsonStore) (pid id : String) (d : ProjectData)
    (i j : Item) (v w : String) (now : Nat)
    (hdb : db.items.find? (fun it => it.id = id) = some i)
    (hids : s.project_ids = [pid])
    (hdoc : s.load_project pid = .ok d)
    (hfind : d.items.find? (fun it => it.id = id) = some j) :
    ((db.update_item id {} now).2.map (fun it => it.coding_agent_args))
        = some i.coding_agent_args ∧
      ((db.update_item id { coding_agent_args := some (some v) } now).2.map
          (fun it => it.coding_agent_args))
        = some (if v = "" then none else some v) ∧
      ((db.update_item id { coding_agent_args := some none } now).2.map
          (fun it => it.coding_agent_args)) = some none ∧
      ((s.update_item id {} now).2.map
          (fun o => o.map (fun it => it.coding_agent_args)))
        = .ok (some j.coding_agent_args) ∧
      ((s.update_item id { coding_agent_args := some (some v) } now).2.map
          (fun o => o.map (fun it => it.coding_agent_args)))
        = .ok (some (some v)) ∧
      ((s.update_item id { coding_agent_args := some none } now).2.map
          (fun o => o.map (fun it => it.coding_agent_args)))
        = .ok (some none) ∧
      ((db.update_item id {} now).2.map (fun it => it.coding_agent_env))
        = some i.coding_agent_env ∧
      ((db.update_item id { coding_agent_env := some (some w) } now).2.map
          (fun it => it.coding_agent_env))
        = some (if w = "" then none else some w) ∧
      ((db.update_item id { coding_agent_env := some none } now).2.map
          (fun it => it.coding_agent_env)) = some none ∧
      ((s.update_item id {} now).2.map
          (fun o => o.map (fun it => it.coding_agent_env)))
        = .ok (some j.coding_agent_env) ∧
      ((s.update_item id { coding_agent_env := some (some w) } now).2.map
          (fun o => o.map (fun it => it.coding_agent_env)))
        = .ok (some (some w)) ∧
      ((s.update_item id { coding_agent_env := some none } now).2.map
          (fun o => o.map (fun it => it.coding_agent_env)))
        = .ok (some none) := by
  refine ⟨?_, ?_, ?_, ?_, ?_, ?_, ?_, ?_, ?_, ?_, ?_, ?_⟩ <;>
    simp [Database.update_item, hdb, Database.applyItemUpdate,
      Database.threeState, JsonStore.update_item, hids,
      JsonStore.scan_mutate, hdoc, hfind, JsonStore.applyItemUpdate,
      Except.map]

theorem update_item_coding_agent_three_state_witness :
    ((({ projects := [], items := [sampleItemEnv], file_cards := []
         todos := [], settings := [] } : Database).update_item "i"
        { coding_agent_args := some (some "") } 10).2.map
      (fun it => it.coding_agent_args)) = some none ∧
      ((({ projects := [], items := [sampleItemEnv], file_cards := []
           todos := [], settings := [] } : Database).update_item "i"
          { coding_agent_env := some (some "") } 10).2.map
        (fun it => it.coding_agent_env)) = some none :=
  ⟨(update_item_coding_agent_three_state
      { projects := [], items := [sampleItemEnv], file_cards := []
        todos := [], settings := [] }
      sampleStoreEnv "p" "i" sampleDocEnv sampleItemEnv sampleItemEnv "" "" 10
      (by decide) rfl (by decide) (by decide)).2.1,
    (update_item_coding_agent_three_state
      { projects := [], items := [sampleItemEnv], file_cards := []
        todos := [], settings := [] }
      sampleStoreEnv "p" "i" sampleDocEnv sampleItemEnv sampleItemEnv "" "" 10
      (by decide) rfl (by decide) (by decide)).2.2.2.2.2.2.2.1⟩

/-- Sample `projects` table row mirroring `sampleDoc`. -/
def sampleDbRow : DbProjectRow :=
  { id := "p", name := "P", description := "", metadata := "{}"
    created_at := 1, updated_at := 5 }

/-- Sample relational store mirroring `sampleStore`. -/
def sampleDb : Database :=
  { projects := [sampleDbRow], items := [sampleItem], file_cards := []
    todos := [], settings := [] }

/-- Envelope with one project row colliding with the stored project
`"p"` and one item whose `project_id` (`"q"`) is unknown. -/
def sampleEnvelope : ImportData :=
  { projects := [{ id := "p", name := "P2", description := ""
                   metadata := "{}", created_at := 2, updated_at := 2 }]
    items := [{ sampleItem with id := "i2", project_id := "q" }]
    file_cards := none }

/-- C3 counterexample: the document backend's import, given one
colliding project and one orphan item, answers `skipped == 1`, not the
claimed `skipped == 2` — the orphan item is never examined, because
items are only gathered for project rows that are actually imported. -/
theorem import_orphan_item_not_counted :
    (JsonStore.import_data sampleStore (fun _ => none) sampleEnvelope
          "merge").2
        = .ok { projects_imported := 0, items_imported := 0
                file_cards_imported := 0, skipped := 1 } ∧
      ({ projects_imported := 0, items_imported := 0
         file_cards_imported := 0, skipped := 1 } : ImportResult)
        ≠ { projects_imported := 0, items_imported := 0
            file_cards_imported := 0, skipped := 2 } := by
  refine ⟨by decide, by decide⟩

/-- C3 amended: importing an envelope with exactly one project whose id
already exists and one item whose `project_id` matches no known project,
in merge mode, writes nothing in either backend; the relational backend
counts both skips (`skipped == 2`, nothing imported), while the document
backend counts only the project collision (`skipped == 1`, nothing
imported) because the orphan item is never examined. -/
theorem import_skip_counting
    (db : Database) (s : JsonStore)
    (parseMeta : String → Option ProjectMetadata)
    (row : ProjectRow) (it : Item)
    (hdbrow : (db.projects.find? (fun p => p.id = row.id)).isSome = true)
    (hdbit : db.items.find? (fun x => x.id = it.id) = none)
    (hdbproj : db.projects.find? (fun p => p.id = it.project_id) = none)
    (hjs : s.project_ids.contains row.id = true) :
    db.import_data { projects := [row], items := [it], file_cards := none }
        "merge"
      = (db, { projects_imported := 0, items_imported := 0
               file_cards_imported := 0, skipped := 2 }) ∧
      s.import_data parseMeta
          { projects := [row], items := [it], file_cards := none } "merge"
        = (s, .ok { projects_imported := 0, items_imported := 0
                    file_cards_imported := 0, skipped := 1 }) := by
  constructor
  · have hex : ∃ x ∈ db.projects, x.id = row.id := by
      simpa [List.find?_isSome] using hdbrow
    have hni : ∀ x ∈ db.items, ¬(x.id = it.id) := by
      simpa [List.find?_eq_none] using hdbit
    have hni2 : ¬∃ x ∈ db.items, x.id = it.id := by
      rintro ⟨x, hx, hxe⟩
      exact hni x hx hxe
    have hnp : ∀ x ∈ db.projects, ¬(x.id = it.project_id) := by
      simpa [List.find?_eq_none] using hdbproj
    simp [Database.import_data, hex, hni2]
    refine ⟨?_, ?_, ?_⟩ <;> rw [if_pos hnp]
  · have hmem : row.id ∈ s.project_ids := by simpa using hjs
    simp [JsonStore.import_data, hmem]

theorem import_skip_counting_witness :
    sampleDb.import_data sampleEnvelope "merge"
      = (sampleDb, { projects_imported := 0, items_imported := 0
                     file_cards_imported := 0, skipped := 2 }) :=
  (import_skip_counting sampleDb sampleStore (fun _ => none)
    { id := "p", name := "P2", description := "", metadata := "{}"
      created_at := 2, updated_at := 2 }
    { sampleItem with id := "i2", project_id := "q" }
    (by decide) (by decide) (by decide) (by decide)).1

/-- Sample uncompleted todo `"d"` of project `"p"`. -/
def sampleTodo : TodoItem :=
  { id := "d", project_id := "p", content := "todo", completed := false
    order := 0, indent_level := 0, created_at := 1, updated_at := 1
    completed_at := none }

def sampleDocTodos : ProjectData := { sampleDoc with todos := [sampleTodo] }

def sampleStoreTodos : JsonStore :=
  { project_ids := ["p"], global_settings := []
    docs := [("p", .ok sampleDocTodos)] }

def sampleDbTodos : Database := { sampleDb with todos := [sampleTodo] }

/-- C6: `update_todo` maintains the `completed_at` lifecycle in both
backends: completing a not-completed todo stamps the call's timestamp
(a non-null fresh value — in particular, re-completing after an
un-completion stamps the later call's time, not the original one, shown
explicitly by the chained conjunct); any `completed = false` update
clears the stamp; re-asserting `completed = true` on an
already-completed todo keeps the stored stamp. -/
theorem update_todo_completed_at_lifecycle
    (db : Database) (s : JsonStore) (pid id : String) (d : ProjectData)
    (t u : TodoItem) (now : Nat)
    (hdb : db.todos.find? (fun x => x.id = id) = some t)
    (hids : s.project_ids = [pid])
    (hdoc : s.load_project pid = .ok d)
    (hfind : d.todos.find? (fun x => x.id = id) = some u) :
    (t.completed = false →
      ((db.update_todo id { completed := some true } now).2.map
        (fun x => x.completed_at)) = some (some now)) ∧
      ((db.update_todo id { completed := some false } now).2.map
          (fun x => x.completed_at)) = some none ∧
      (t.completed = true →
        ((db.update_todo id { completed := some true } now).2.map
          (fun x => x.completed_at)) = some t.completed_at) ∧
      (∀ t1 t2 t3 : Nat, db.todos = [t] → t.id = id → t.completed = false →
        ((((db.update_todo id { completed := some true } t1).1.update_todo
              id { completed := some false } t2).1.update_todo id
            { completed := some true } t3).2.map (fun x => x.completed_at))
          = some (some t3)) ∧
      (u.completed = false →
        ((s.update_todo id { completed := some true } now).2.map
          (fun o => o.map (fun x => x.completed_at))) = .ok (some (some now))) ∧
      ((s.update_todo id { completed := some false } now).2.map
          (fun o => o.map (fun x => x.completed_at))) = .ok (some none) ∧
      (u.completed = true →
        ((s.update_todo id { completed := some true } now).2.map
          (fun o => o.map (fun x => x.completed_at))) = .ok (some u.completed_at)) := by
  refine ⟨?_, ?_, ?_, ?_, ?_, ?_, ?_⟩
  · intro hc
    simp [Database.update_todo, hdb, Database.applyTodoUpdate, hc]
  · simp [Database.update_todo, hdb, Database.applyTodoUpdate]
  · intro hc
    simp [Database.update_todo, hdb, Database.applyTodoUpdate, hc]
  · intro t1 t2 t3 hlist htid hc
    simp [Database.update_todo, hlist, htid, Database.applyTodoUpdate, hc]
  · intro hc
    simp [JsonStore.update_todo, hids, JsonStore.scan_mutate, hdoc, hfind,
      JsonStore.applyTodoUpdate, hc, Except.map]
  · simp [JsonStore.update_todo, hids, JsonStore.scan_mutate, hdoc, hfind,
      JsonStore.applyTodoUpdate, Except.map]
  · intro hc
    simp [JsonStore.update_todo, hids, JsonStore.scan_mutate, hdoc, hfind,
      JsonStore.applyTodoUpdate, hc, Except.map]

theorem update_todo_completed_at_lifecycle_witness :
    ((sampleDbTodos.update_todo "d" { completed := some true } 10).2.map
      (fun x => x.completed_at)) = some (some 10) :=
  (update_todo_completed_at_lifecycle sampleDbTodos sampleStoreTodos "p" "d"
    sampleDocTodos sampleTodo sampleTodo 10
    (by decide) rfl (by decide) (by decide)).1 (by decide)

/-- C5: `reorder_items(P, [a, b, c])` on a project holding exactly the
items {a, b, c} — whatever their prior `order` values — leaves the
stored items readable in the sequence a, b, c with dense orders 0, 1, 2,
in both backends (the document backend stores the list re-sorted; the
relational backend reads it back through `ORDER BY "order" ASC`). -/
theorem reorder_items_dense
    (db : Database) (s : JsonStore) (pid : String) (d : ProjectData)
    (ia ib ic : Item) (a b c : String) (now : Nat)
    (hdoc : s.load_project pid = .ok d) (hid : d.id = pid)
    (hitems : d.items = [ia, ib, ic])
    (hA : ia.id = a) (hB : ib.id = b) (hC : ic.id = c)
    (hab : a ≠ b) (hac : a ≠ c) (hbc : b ≠ c)
    (hdbitems : db.items = [ia, ib, ic])
    (hpa : ia.project_id = pid) (hpb : ib.project_id = pid)
    (hpc : ic.project_id = pid) :
    (((s.reorder_items pid [a, b, c] now).1.load_project pid).map
        (fun x => x.items))
      = .ok [{ ia with order := 0, updated_at := now },
              { ib with order := 1, updated_at := now },
              { ic with order := 2, updated_at := now }] ∧
      (db.reorder_items pid [a, b, c] now).items_of_project pid
        = [{ ia with order := 0, updated_at := now },
            { ib with order := 1, updated_at := now },
            { ic with order := 2, updated_at := now }] := by
  constructor
  · have hupd : [a, b, c].enum.foldl
        (fun acc p =>
          updateFirst (fun i => i.id = p.2)
            (fun i => { i with order := Int.ofNat p.1, updated_at := now })
            acc)
        d.items
        = [{ ia with order := 0, updated_at := now },
            { ib with order := 1, updated_at := now },
            { ic with order := 2, updated_at := now }] := by
      simp [List.enum, hitems, updateFirst, hA, hB, hC, hab, hac, hbc,
        Ne.symm hab, Ne.symm hac, Ne.symm hbc]
    simp only [JsonStore.reorder_items, hdoc, hupd]
    simp [JsonStore.save_project, JsonStore.load_project, hid,
      alistFind_upsert_self, sortByKey, insertByKey, Except.map]
  · simp [Database.reorder_items, Database.reorder_items_rows, hdbitems,
      Database.touch_project, Database.items_of_project, List.enum,
      hA, hB, hC, hab, hac, hbc, Ne.symm hab, Ne.symm hac, Ne.symm hbc,
      hpa, hpb, hpc, sortByKey, insertByKey]

theorem reorder_items_dense_witness :
    (({ projects := [sampleDbRow]
        items := [{ sampleItem with id := "a", order := 7 },
                  { sampleItem with id := "b", order := 3 },
                  { sampleItem with id := "c", order := 5 }]
        file_cards := [], todos := [], settings := [] } : Database).reorder_items
        "p" ["a", "b", "c"] 10).items_of_project "p"
      = [{ sampleItem with id := "a", order := 0, updated_at := 10 },
          { sampleItem with id := "b", order := 1, updated_at := 10 },
          { sampleItem with id := "c", order := 2, updated_at := 10 }] :=
  (reorder_items_dense
    { projects := [sampleDbRow]
      items := [{ sampleItem with id := "a", order := 7 },
                { sampleItem with id := "b", order := 3 },
                { sampleItem with id := "c", order := 5 }]
      file_cards := [], todos := [], settings := [] }
    { project_ids := ["p"], global_settings := []
      docs := [("p", .ok { sampleDoc with
        items := [{ sampleItem with id := "a", order := 7 },
                  { sampleItem with id := "b", order := 3 },
                  { sampleItem with id := "c", order := 5 }] })] }
    "p"
    { sampleDoc with
      items := [{ sampleItem with id := "a", order := 7 },
                { sampleItem with id := "b", order := 3 },
                { sampleItem with id := "c", order := 5 }] }
    { sampleItem with id := "a", order := 7 }
    { sampleItem with id := "b", order := 3 }
    { sampleItem with id := "c", order := 5 }
    "a" "b" "c" 10
    (by decide) (by decide) (by decide) (by decide) (by decide) (by decide)
    (by decide) (by decide) (by decide) (by decide) (by decide) (by decide)
    (by decide)).2

/-- C8: for an id matching no stored record, every update operation of
either backend answers a successful `None` and every delete operation a
successful `false`; none of them errors (the document backend's
`Except` results are `Ok`, and the relational backend's only failure
source is the engine itself, not a missed row). -/
theorem missing_id_update_delete_not_error
    (db : Database) (s : JsonStore) (id : String) (now : Nat)
    (nm dsc : Option String) (m : Option ProjectMetadata)
    (parseMeta : String → Option ProjectMetadata)
    (serialMeta : ProjectMetadata → String)
    (uI : ItemUpdate) (uC : FileCardUpdate) (uT : TodoUpdate)
    (hjdoc : alistFind id s.docs = none)
    (hjpid : s.project_ids.contains id = false)
    (hji : ∀ pid ∈ s.project_ids, ∀ d, s.load_project pid = .ok d →
      ∀ i ∈ d.items, i.id ≠ id)
    (hjc : ∀ pid ∈ s.project_ids, ∀ d, s.load_project pid = .ok d →
      ∀ c ∈ d.file_cards, c.id ≠ id)
    (hjt : ∀ pid ∈ s.project_ids, ∀ d, s.load_project pid = .ok d →
      ∀ t ∈ d.todos, t.id ≠ id)
    (hdp : ∀ p ∈ db.projects, p.id ≠ id)
    (hdi : ∀ i ∈ db.items, i.id ≠ id)
    (hdc : ∀ c ∈ db.file_cards, c.id ≠ id)
    (hdt : ∀ t ∈ db.todos, t.id ≠ id) :
    (s.update_project id nm dsc m now).2 = .ok none ∧
      (s.delete_project id).2 = .ok false ∧
      (s.update_item id uI now).2 = .ok none ∧
      (s.delete_item id now).2 = .ok false ∧
      (s.update_file_card id uC now).2 = .ok none ∧
      (s.delete_file_card id).2 = .ok false ∧
      (s.update_todo id uT now).2 = .ok none ∧
      (s.delete_todo id).2 = .ok false ∧
      (db.update_project parseMeta serialMeta id nm dsc m now).2 = none ∧
      (db.delete_project id).2 = false ∧
      (db.update_item id uI now).2 = none ∧
      (db.delete_item id now).2 = false ∧
      (db.update_file_card id uC now).2 = none ∧
      (db.delete_file_card id).2 = false ∧
      (db.update_todo id uT now).2 = none ∧
      (db.delete_todo id).2 = false := by
  have hfi : ∀ pid ∈ s.project_ids, ∀ d, s.load_project pid = .ok d →
      d.items.find? (fun i => i.id = id) = none := by
    intro pid hm d hl
    exact List.find?_eq_none.mpr (fun x hx => by simpa using hji pid hm d hl x hx)
  have hai : ∀ pid ∈ s.project_ids, ∀ d, s.load_project pid = .ok d →
      d.items.any (fun i => i.id = id) = false := by
    intro pid hm d hl
    simp only [List.any_eq_false]
    intro x hx
    simpa using hji pid hm d hl x hx
  have hfc : ∀ pid ∈ s.project_ids, ∀ d, s.load_project pid = .ok d →
      d.file_cards.find? (fun c => c.id = id) = none := by
    intro pid hm d hl
    exact List.find?_eq_none.mpr (fun x hx => by simpa using hjc pid hm d hl x hx)
  have hac : ∀ pid ∈ s.project_ids, ∀ d, s.load_project pid = .ok d →
      d.file_cards.any (fun c => c.id = id) = false := by
    intro pid hm d hl
    simp only [List.any_eq_false]
    intro x hx
    simpa using hjc pid hm d hl x hx
  have hft : ∀ pid ∈ s.project_ids, ∀ d, s.load_project pid = .ok d →
      d.todos.find? (fun t => t.id = id) = none := by
    intro pid hm d hl
    exact List.find?_eq_none.mpr (fun x hx => by simpa using hjt pid hm d hl x hx)
  have hat : ∀ pid ∈ s.project_ids, ∀ d, s.load_project pid = .ok d →
      d.todos.any (fun t => t.id = id) = false := by
    intro pid hm d hl
    simp only [List.any_eq_false]
    intro x hx
    simpa using hjt pid hm d hl x hx
  have hdbp : db.projects.find? (fun p => p.id = id) = none :=
    List.find?_eq_none.mpr (fun x hx => by simpa using hdp x hx)
  have hdbpa : db.projects.any (fun p => p.id = id) = false := by
    simp only [List.any_eq_false]
    intro x hx
    simpa using hdp x hx
  have hdbi : db.items.find? (fun i => i.id = id) = none :=
    List.find?_eq_none.mpr (fun x hx => by simpa using hdi x hx)
  have hdbia : db.items.any (fun i => i.id = id) = false := by
    simp only [List.any_eq_false]
    intro x hx
    simpa using hdi x hx
  have hdbc : db.file_cards.find? (fun c => c.id = id) = none :=
    List.find?_eq_none.mpr (fun x hx => by simpa using hdc x hx)
  have hdbca : db.file_cards.any (fun c => c.id = id) = false := by
    simp only [List.any_eq_false]
    intro x hx
    simpa using hdc x hx
  have hdbt : db.todos.find? (fun t => t.id = id) = none :=
    List.find?_eq_none.mpr (fun x hx => by simpa using hdt x hx)
  have hdbta : db.todos.any (fun t => t.id = id) = false := by
    simp only [List.any_eq_false]
    intro x hx
    simpa using hdt x hx
  refine ⟨?_, ?_, ?_, ?_, ?_, ?_, ?_, ?_, ?_, ?_, ?_, ?_, ?_, ?_, ?_, ?_⟩
  · simp [JsonStore.update_project, JsonStore.load_project, hjdoc]
  · have hnm : id ∉ s.project_ids := by simpa using hjpid
    simp [JsonStore.delete_project, hnm]
  · rw [JsonStore.update_item,
      scan_mutate_none s _ _ (fun pid hm d hl => by simp [hfi pid hm d hl])]
  · rw [JsonStore.delete_item,
      scan_mutate_none s _ _ (fun pid hm d hl => by simp [hai pid hm d hl])]
    simp [Except.map]
  · rw [JsonStore.update_file_card,
      scan_mutate_none s _ _ (fun pid hm d hl => by simp [hfc pid hm d hl])]
  · rw [JsonStore.delete_file_card,
      scan_mutate_none s _ _ (fun pid hm d hl => by simp [hac pid hm d hl])]
    simp [Except.map]
  · rw [JsonStore.update_todo,
      scan_mutate_none s _ _ (fun pid hm d hl => by simp [hft pid hm d hl])]
  · rw [JsonStore.delete_todo,
      scan_mutate_none s _ _ (fun pid hm d hl => by simp [hat pid hm d hl])]
    simp [Except.map]
  · simp [Database.update_project, Database.get_project_by_id, hdbp]
  · simp [Database.delete_project, hdbpa]
  · simp [Database.update_item, hdbi]
  · simp [Database.delete_item, hdbia]
  · simp [Database.update_file_card, hdbc]
  · simp [Database.delete_file_card, hdbca]
  · simp [Database.update_todo, hdbt]
  · simp [Database.delete_todo, hdbta]

theorem missing_id_update_delete_not_error_witness :
    (sampleStore.update_item "zzz" {} 10).2 = .ok none ∧
      (sampleDb.delete_item "zzz" 10).2 = false := by
  have hsolve : ∀ pid ∈ sampleStore.project_ids, ∀ d : ProjectData,
      sampleStore.load_project pid = .ok d → d = sampleDoc := by
    intro pid hm d hl
    simp [sampleStore] at hm
    subst hm
    rw [show sampleStore.load_project "p" = .ok sampleDoc from rfl] at hl
    injection hl with h2
    exact h2.symm
  have h := missing_id_update_delete_not_error sampleDb sampleStore "zzz" 10
    none none none (fun _ => none) (fun _ => "") {} {} {}
    (by decide) (by decide)
    (fun pid hm d hl => by rw [hsolve pid hm d hl]; decide)
    (fun pid hm d hl => by rw [hsolve pid hm d hl]; decide)
    (fun pid hm d hl => by rw [hsolve pid hm d hl]; decide)
    (by decide) (by decide) (by decide) (by decide)
  exact ⟨h.2.2.1, h.2.2.2.2.2.2.2.2.2.2.2.1⟩

/-- Reading back the project just saved: `save_project` overwrites the
file/cache entry keyed by the document's own id. -/
theorem load_after_save_of_id (s : JsonStore) (d : ProjectData)
    (k : String) (h : d.id = k) :
    (s.save_project d).load_project k = .ok d := by
  subst h
  simp [JsonStore.save_project, JsonStore.load_project, alistFind_upsert_self]

/-- C2 counterexample: creating a file card for project `"p"` (stored
with `updated_at = 5`) at time 10 stores a card stamped 10 while the
project's own `updated_at` stays 5 < 10: the claimed touch propagation
does not happen for file-card mutations. -/
theorem create_file_card_does_not_touch_project :
    (((JsonStore.create_file_card sampleStore "p" "f.txt" "/tmp/f.txt" 0 0
            "c1" 10).1.load_project "p").map (fun x => x.updated_at))
        = .ok 5 ∧
      ((JsonStore.create_file_card sampleStore "p" "f.txt" "/tmp/f.txt" 0 0
            "c1" 10).2.map (fun x => x.updated_at)) = .ok 10 ∧
      ¬(5 ≥ 10) := by
  refine ⟨by decide, by decide, by decide⟩

/-- C2 amended: in both backends the item mutations — create_item,
update_item, delete_item, reorder_items — set the parent project's
`updated_at` to the operation timestamp (so it equals, hence bounds, the
mutated item's own stamp), while none of the file-card or todo
mutations — create/update/delete file card, create/update/delete todo,
reorder_todos — modifies any project's `updated_at`. -/
theorem child_mutation_touch_discipline
    (db : Database) (s : JsonStore) (pid iid cid tid : String)
    (d : ProjectData) (i0 : Item) (c0 : FileCard) (t0 : TodoItem)
    (prow : DbProjectRow) (i0d : Item) (c0d : FileCard) (t0d : TodoItem)
    (uI : ItemUpdate) (uC : FileCardUpdate) (uT : TodoUpdate)
    (ty : ItemType) (ti co f fp cnt : String) (x y il : Int)
    (nid : String) (ids ids2 : List String) (now : Nat)
    (hids : s.project_ids = [pid])
    (hdoc : s.load_project pid = .ok d) (hid : d.id = pid)
    (hfi : d.items.find? (fun i => i.id = iid) = some i0)
    (hfc : d.file_cards.find? (fun c => c.id = cid) = some c0)
    (hft : d.todos.find? (fun t => t.id = tid) = some t0)
    (hrow : db.projects = [prow]) (hprow : prow.id = pid)
    (hdbi : db.items.find? (fun i => i.id = iid) = some i0d)
    (hdbip : i0d.project_id = pid)
    (hdbc : db.file_cards.find? (fun c => c.id = cid) = some c0d)
    (hdbt : db.todos.find? (fun t => t.id = tid) = some t0d) :
    (((s.create_item pid ty ti co none none none none none none none none
            nid now).1.load_project pid).map (fun z => z.updated_at))
        = .ok now ∧
      (((s.update_item iid uI now).1.load_project pid).map
          (fun z => z.updated_at)) = .ok now ∧
      (((s.delete_item iid now).1.load_project pid).map
          (fun z => z.updated_at)) = .ok now ∧
      (((s.reorder_items pid ids now).1.load_project pid).map
          (fun z => z.updated_at)) = .ok now ∧
      (((s.create_file_card pid f fp x y nid now).1.load_project pid).map
          (fun z => z.updated_at)) = .ok d.updated_at ∧
      (((s.update_file_card cid uC now).1.load_project pid).map
          (fun z => z.updated_at)) = .ok d.updated_at ∧
      (((s.delete_file_card cid).1.load_project pid).map
          (fun z => z.updated_at)) = .ok d.updated_at ∧
      (((s.create_todo pid cnt il nid now).1.load_project pid).map
          (fun z => z.updated_at)) = .ok d.updated_at ∧
      (((s.update_todo tid uT now).1.load_project pid).map
          (fun z => z.updated_at)) = .ok d.updated_at ∧
      (((s.delete_todo tid).1.load_project pid).map
          (fun z => z.updated_at)) = .ok d.updated_at ∧
      (((s.reorder_todos pid ids2 now).1.load_project pid).map
          (fun z => z.updated_at)) = .ok d.updated_at ∧
      (db.create_item pid ty ti co none none none none none none none none
          nid now).1.projects = [{ prow with updated_at := now }] ∧
      (db.update_item iid uI now).1.projects
        = [{ prow with updated_at := now }] ∧
      (db.delete_item iid now).1.projects
        = [{ prow with updated_at := now }] ∧
      (db.reorder_items pid ids now).projects
        = [{ prow with updated_at := now }] ∧
      (db.create_file_card pid f fp x y nid now).1.projects = db.projects ∧
      (db.update_file_card cid uC now).1.projects = db.projects ∧
      (db.delete_file_card cid).1.projects = db.projects ∧
      (db.create_todo pid cnt il nid now).1.projects = db.projects ∧
      (db.update_todo tid uT now).1.projects = db.projects ∧
      (db.delete_todo tid).1.projects = db.projects ∧
      (db.reorder_todos pid ids2 now).projects = db.projects := by
  have hmi : i0 ∈ d.items := List.mem_of_find?_eq_some hfi
  have hii : i0.id = iid := by simpa using List.find?_some hfi
  have hmc : c0 ∈ d.file_cards := List.mem_of_find?_eq_some hfc
  have hmt : t0 ∈ d.todos := List.mem_of_find?_eq_some hft
  have hani : d.items.any (fun i => i.id = iid) = true :=
    List.any_eq_true.mpr ⟨i0, hmi, by simpa using hii⟩
  have hanc : d.file_cards.any (fun c => c.id = cid) = true :=
    List.any_eq_true.mpr ⟨c0, hmc, by simpa using List.find?_some hfc⟩
  have hant : d.todos.any (fun t => t.id = tid) = true :=
    List.any_eq_true.mpr ⟨t0, hmt, by simpa using List.find?_some hft⟩
  have hexi : ∃ z ∈ d.items, z.id = iid := ⟨i0, hmi, hii⟩
  have hexc : ∃ z ∈ d.file_cards, z.id = cid :=
    ⟨c0, hmc, by simpa using List.find?_some hfc⟩
  have hext : ∃ z ∈ d.todos, z.id = tid :=
    ⟨t0, hmt, by simpa using List.find?_some hft⟩
  have hdbmi : i0d ∈ db.items := List.mem_of_find?_eq_some hdbi
  have hdbii : i0d.id = iid := by simpa using List.find?_some hdbi
  have hdbani : db.items.any (fun i => i.id = iid) = true :=
    List.any_eq_true.mpr ⟨i0d, hdbmi, by simpa using hdbii⟩
  refine ⟨?_, ?_, ?_, ?_, ?_, ?_, ?_, ?_, ?_, ?_, ?_, ?_, ?_, ?_, ?_, ?_,
    ?_, ?_, ?_, ?_, ?_, ?_⟩
  · simp [JsonStore.create_item, hdoc, load_after_save_of_id, hid,
      Except.map]
  · simp [JsonStore.update_item, hids, JsonStore.scan_mutate, hdoc, hfi,
      load_after_save_of_id, hid, Except.map]
  · simp [JsonStore.delete_item, hids, JsonStore.scan_mutate, hdoc, hani,
      hexi, load_after_save_of_id, hid, Except.map]
  · simp [JsonStore.reorder_items, hdoc, load_after_save_of_id, hid,
      Except.map]
  · simp [JsonStore.create_file_card, hdoc, load_after_save_of_id, hid,
      Except.map]
  · simp [JsonStore.update_file_card, hids, JsonStore.scan_mutate, hdoc,
      hfc, load_after_save_of_id, hid, Except.map]
  · simp [JsonStore.delete_file_card, hids, JsonStore.scan_mutate, hdoc,
      hanc, hexc, load_after_save_of_id, hid, Except.map]
  · simp [JsonStore.create_todo, hdoc, load_after_save_of_id, hid,
      Except.map]
  · simp [JsonStore.update_todo, hids, JsonStore.scan_mutate, hdoc, hft,
      load_after_save_of_id, hid, Except.map]
  · simp [JsonStore.delete_todo, hids, JsonStore.scan_mutate, hdoc, hant,
      hext, load_after_save_of_id, hid, Except.map]
  · simp [JsonStore.reorder_todos, hdoc, load_after_save_of_id, hid,
      Except.map]
  · simp [Database.create_item, Database.touch_project, hrow, hprow]
  · simp [Database.update_item, hdbi, Database.touch_project, hrow,
      hdbip, hprow]
  · simp [Database.delete_item, hdbi, hdbani, Database.touch_project,
      hrow, hdbip, hprow]
  · simp [Database.reorder_items, Database.touch_project, hrow, hprow]
  · simp [Database.create_file_card]
  · simp [Database.update_file_card, hdbc]
  · simp [Database.delete_file_card]
  · simp [Database.create_todo]
  · simp [Database.update_todo, hdbt]
  · simp [Database.delete_todo]
  · simp [Database.reorder_todos]

/-- Sample file card `"c"` of project `"p"`. -/
def sampleCard : FileCard :=
  { id := "c", project_id := "p", filename := "f", file_path := "/f"
    position_x := 0, position_y := 0, is_expanded := false
    is_minimized := false, z_index := 0, created_at := 1, updated_at := 1 }

def sampleDocFull : ProjectData :=
  { sampleDoc with todos := [sampleTodo], file_cards := [sampleCard] }

def sampleStoreFull : JsonStore :=
  { project_ids := ["p"], global_settings := []
    docs := [("p", .ok sampleDocFull)] }

def sampleDbFull : Database :=
  { projects := [sampleDbRow], items := [sampleItem]
    file_cards := [sampleCard], todos := [sampleTodo], settings := [] }

theorem child_mutation_touch_discipline_witness :
    (((sampleStoreFull.create_file_card "p" "g" "/g" 0 0 "c2"
          10).1.load_project "p").map (fun z => z.updated_at)) = .ok 5 :=
  (child_mutation_touch_discipline sampleDbFull sampleStoreFull "p" "i" "c"
    "d" sampleDocFull sampleItem sampleCard sampleTodo sampleDbRow
    sampleItem sampleCard sampleTodo {} {} {} .note "t" "c" "g" "/g" "z"
    0 0 0 "c2" [] [] 10
    rfl (by decide) (by decide) (by decide) (by decide) (by decide)
    rfl (by decide) (by decide) (by decide) (by decide)
    (by decide)).2.2.2.2.1
